import Mathlib

/-!
Verification of the task-tracking service in `main.go` (Go/Gin + MongoDB).

The handlers are embedded shallowly: each Gin handler becomes a pure Lean
function from a `Store` (the in-memory view of the two Mongo collections)
and its request parameters to a result and a new `Store`.  Mongo driver
calls are modelled by list operations with the driver's documented
semantics (`FindOne` = first match, `DeleteOne` = remove one matching
document, `UpdateByID` + `$set` = partial field update on the document
with the given `_id`, `DeleteMany` = remove every match, `InsertOne` =
append with a store-generated identifier).
-/

namespace TodoApp

/-- Go's `unicode.IsSpace` on the characters relevant here (Latin-1 range):
space, tab, newline, vertical tab, form feed, carriage return, NEL, NBSP. -/
def isSpaceGo (c : Char) : Bool :=
  c == ' ' || c == '\t' || c == '\n' || c == '\x0b' || c == '\x0c' || c == '\r' ||
  c == '\x85' || c == '\xa0'

/-- Go's `strings.TrimSpace`: drop leading and trailing whitespace. -/
def trimSpace (s : String) : String :=
  String.mk (((s.data.dropWhile isSpaceGo).reverse.dropWhile isSpaceGo).reverse)

/-- Go's `strings.ToLower`: lower-case each character. -/
def toLower (s : String) : String :=
  String.mk (s.data.map Char.toLower)

/-- `normalizeEmail` from main.go: `strings.ToLower(strings.TrimSpace(email))`. -/
def normalizeEmail (email : String) : String :=
  toLower (trimSpace email)

/-- `normalizeText` from main.go: `strings.TrimSpace(s)`. -/
def normalizeText (s : String) : String :=
  trimSpace s

/-- `User` struct from main.go: email and password, stored verbatim. -/
structure User where
  email : String
  password : String
deriving Repr, DecidableEq

/-- `Todo` struct from main.go.  The Mongo `primitive.ObjectID` is modelled
by its canonical lowercase 24-hex-digit string (`ObjectID.Hex()`); the
`time.Time` creation timestamp is modelled as a `Nat`. -/
structure Todo where
  id : String
  email : String
  title : String
  completed : Bool
  createdAt : Nat
deriving Repr, DecidableEq

/-- `TodoResponse` struct from main.go: the JSON projection of a `Todo`. -/
structure TodoResponse where
  id : String
  email : String
  title : String
  completed : Bool
  createdAt : Nat
deriving Repr, DecidableEq

/-- `toTodoResponse` from main.go. -/
def toTodoResponse (todo : Todo) : TodoResponse :=
  { id := todo.id
    email := todo.email
    title := todo.title
    completed := todo.completed
    createdAt := todo.createdAt }

/-- Hex digit as accepted by `encoding/hex` (both cases). -/
def isHexDigit (c : Char) : Bool :=
  c.isDigit || (('a' ≤ c) && (c ≤ 'f')) || (('A' ≤ c) && (c ≤ 'F'))

/-- Well-formedness of a Mongo ObjectID hex string:
`primitive.ObjectIDFromHex` succeeds exactly on 24 hex characters. -/
def validObjectID (s : String) : Bool :=
  s.length == 24 && s.data.all isHexDigit

/-- `primitive.ObjectIDFromHex`: parses a 24-hex-char string to the
canonical (lowercase, as `ObjectID.Hex()` prints) identifier, `none` on a
malformed string. -/
def parseObjectID (s : String) : Option String :=
  if validObjectID s then some (toLower s) else none

/-- Modelled from the spec: the store-generated opaque identifier produced
by the Mongo driver on `InsertOne` (not part of the repository's code).
Rendered as the canonical 24-digit lowercase hex form of a per-store
counter. -/
def toHexList : Nat → Nat → List Char
  | 0, _ => []
  | w + 1, n => toHexList w (n / 16) ++ [Nat.digitChar (n % 16)]

/-- Modelled from the spec: the identifier the store assigns to the n-th
inserted Todo (opaque unique token, 24 lowercase hex digits). -/
def genId (n : Nat) : String :=
  String.mk (toHexList 24 n)

/-- The persistent state: the `users` and `todos` Mongo collections, plus
the counter driving store-side identifier generation. -/
structure Store where
  users : List User
  todos : List Todo
  nextId : Nat
deriving Repr, DecidableEq

/-- `userCollection.FindOne({"email": e})`: first stored user whose email
field equals `e`. -/
def findUser (users : List User) (e : String) : Option User :=
  users.find? (fun u => u.email == e)

/-- `todoCollection.FindOne({"_id": oid})`: first stored todo whose id
equals `oid`. -/
def findTodo (todos : List Todo) (oid : String) : Option Todo :=
  todos.find? (fun t => t.id == oid)

/-- Outcomes of a failed `FindOne(...).Decode(...)` call: either
`mongo.ErrNoDocuments` (no match) or any other store error. -/
inductive FindErr
  | noDocuments
  | storeFailure
deriving Repr, DecidableEq

/-- Result of the `/register` handler. -/
inductive RegisterResult
  | validationError   -- 400 "Email y contraseña son requeridos"
  | conflict          -- 409 "Usuario ya existe"
  | success           -- 201 "Usuario registrado con éxito"
deriving Repr, DecidableEq

/-- `registerUser` from main.go, parametrised by the outcome of the
pre-insert `FindOne` lookup.  The code conflicts exactly when
`err == nil` (the decode succeeded); every error — `ErrNoDocuments` or a
genuine store failure — falls through to `InsertOne`. -/
def registerUserWithFind (s : Store) (email password : String)
    (findRes : Except FindErr User) : RegisterResult × Store :=
  let e := normalizeEmail email
  let p := normalizeText password
  if e = "" ∨ p = "" then (.validationError, s)
  else
    match findRes with
    | .ok _ => (.conflict, s)
    | .error _ =>
        (.success, { s with users := s.users ++ [{ email := e, password := p }] })

/-- `registerUser` from main.go with the in-memory lookup semantics wired
in: the lookup succeeds iff a user with the normalized email is stored. -/
def registerUser (s : Store) (email password : String) : RegisterResult × Store :=
  registerUserWithFind s email password
    (match findUser s.users (normalizeEmail email) with
     | some u => .ok u
     | none => .error .noDocuments)

/-- Result of the `/login` handler. -/
inductive LoginResult
  | validationError   -- 400 "Email y contraseña son requeridos"
  | notFound          -- 401 "Usuario no encontrado"
  | badCredentials    -- 401 "Password incorrecto"
  | success           -- 200 "Login exitoso"
deriving Repr, DecidableEq

/-- `loginUser` from main.go. -/
def loginUser (s : Store) (email password : String) : LoginResult :=
  let e := normalizeEmail email
  let p := normalizeText password
  if e = "" ∨ p = "" then .validationError
  else
    match findUser s.users e with
    | none => .notFound
    | some found => if found.password ≠ p then .badCredentials else .success

/-- `listUsers` from main.go (`Find({})`): every stored user. -/
def listUsers (s : Store) : List User :=
  s.users

/-- `clearUsers` from main.go (`DeleteMany({})`). -/
def clearUsers (s : Store) : Store :=
  { s with users := [] }

/-- `listTodos` from main.go: the raw query is compared with `""` first;
only a non-empty raw query is normalized and used as the email filter. -/
def listTodos (s : Store) (email : String) : List TodoResponse :=
  let todos :=
    if email ≠ "" then s.todos.filter (fun t => t.email == normalizeEmail email)
    else s.todos
  todos.map toTodoResponse

/-- Result of the `/todos` create handler. -/
inductive CreateTodoResult
  | validationError           -- 400 "Email y título son requeridos"
  | created (t : TodoResponse)  -- 201 {todo}
deriving Repr, DecidableEq

/-- `createTodo` from main.go; `now` is the value of `time.Now().UTC()`. -/
def createTodo (s : Store) (email title : String) (now : Nat) :
    CreateTodoResult × Store :=
  let e := normalizeEmail email
  let t := normalizeText title
  if e = "" ∨ t = "" then (.validationError, s)
  else
    let todo : Todo :=
      { id := genId s.nextId, email := e, title := t
        completed := false, createdAt := now }
    (.created (toTodoResponse todo),
      { s with todos := s.todos ++ [todo], nextId := s.nextId + 1 })

/-- The `$set` document built by `updateTodo`: overwrite exactly the
supplied fields of the matched document. -/
def setFields (titleSet : Option String) (completedSet : Option Bool)
    (t : Todo) : Todo :=
  { t with
    title := titleSet.getD t.title
    completed := completedSet.getD t.completed }

/-- `todoCollection.UpdateByID(oid, {"$set": ...})`: apply the `$set`
document to the (unique) stored todo with `_id = oid`; matching nothing is
not an error. -/
def updateById (todos : List Todo) (oid : String)
    (titleSet : Option String) (completedSet : Option Bool) : List Todo :=
  match todos with
  | [] => []
  | t :: ts =>
      if t.id == oid then setFields titleSet completedSet t :: ts
      else t :: updateById ts oid titleSet completedSet

/-- Result of the `/todos/:id` update handler. -/
inductive UpdateTodoResult
  | invalidId                   -- 400 "ID inválido"
  | emptyTitle                  -- 400 "El título no puede estar vacío"
  | nothingToUpdate             -- 400 "Nada para actualizar"
  | readBackError               -- 500 "Error al leer tarea actualizada"
  | updated (t : TodoResponse)  -- 200 {todo}
deriving Repr, DecidableEq

/-- Post-validation body of `updateTodo`: write the `$set` document, then
re-read the entity and project it (500 if the re-read finds nothing). -/
def updateTodoApply (s : Store) (oid : String)
    (titleSet : Option String) (completedSet : Option Bool) :
    UpdateTodoResult × Store :=
  let todos := updateById s.todos oid titleSet completedSet
  match findTodo todos oid with
  | none => (.readBackError, { s with todos := todos })
  | some updated => (.updated (toTodoResponse updated), { s with todos := todos })

/-- `updateTodo` from main.go: invalid-id check, then title validation,
then the emptiness check on the `$set` document, then write + re-read. -/
def updateTodo (s : Store) (idHex : String)
    (titleOpt : Option String) (completedOpt : Option Bool) :
    UpdateTodoResult × Store :=
  match parseObjectID idHex with
  | none => (.invalidId, s)
  | some oid =>
      match titleOpt with
      | some rawTitle =>
          let title := normalizeText rawTitle
          if title = "" then (.emptyTitle, s)
          else updateTodoApply s oid (some title) completedOpt
      | none =>
          match completedOpt with
          | none => (.nothingToUpdate, s)
          | some _ => updateTodoApply s oid none completedOpt

/-- `todoCollection.DeleteOne({"_id": oid})`: remove the first stored todo
with that id (Mongo guarantees `_id` uniqueness, so at most one exists). -/
def deleteOne (todos : List Todo) (oid : String) : List Todo :=
  match todos with
  | [] => []
  | t :: ts => if t.id == oid then ts else t :: deleteOne ts oid

/-- Result of the `/todos/:id` delete handler. -/
inductive DeleteTodoResult
  | invalidId   -- 400 "ID inválido"
  | success     -- 200 "Tarea eliminada"
deriving Repr, DecidableEq

/-- `deleteTodo` from main.go. -/
def deleteTodo (s : Store) (idHex : String) : DeleteTodoResult × Store :=
  match parseObjectID idHex with
  | none => (.invalidId, s)
  | some oid => (.success, { s with todos := deleteOne s.todos oid })

/-- `clearTodos` from main.go: a non-empty raw query is used as the
`DeleteMany` filter verbatim — no normalization; an empty query deletes
every todo. -/
def clearTodos (s : Store) (email : String) : Store :=
  if email ≠ "" then
    { s with todos := s.todos.filter (fun t => !(t.email == email)) }
  else
    { s with todos := [] }

/-- One client-visible operation of the service (one handler call). -/
inductive Op
  | register (email password : String)
  | login (email password : String)
  | listUsersOp
  | clearUsersOp
  | listTodosOp (email : String)
  | createTodoOp (email title : String) (now : Nat)
  | updateTodoOp (idHex : String) (titleOpt : Option String) (completedOpt : Option Bool)
  | deleteTodoOp (idHex : String)
  | clearTodosOp (email : String)

/-- The state transition each operation performs on the store. -/
def applyOp (s : Store) : Op → Store
  | .register e p => (registerUser s e p).2
  | .login _ _ => s
  | .listUsersOp => s
  | .clearUsersOp => clearUsers s
  | .listTodosOp _ => s
  | .createTodoOp e t n => (createTodo s e t n).2
  | .updateTodoOp i t c => (updateTodo s i t c).2
  | .deleteTodoOp i => (deleteTodo s i).2
  | .clearTodosOp e => clearTodos s e

/-- Run a sequence of operations from a starting store. -/
def runOps (s : Store) (ops : List Op) : Store :=
  ops.foldl applyOp s

/-- Invariant of §3: at most one stored User per normalized email. -/
def uniqueEmails (users : List User) : Prop :=
  users.Pairwise (fun a b => a.email ≠ b.email)

/-- Number of stored users carrying a given email. -/
def countEmail (users : List User) (e : String) : Nat :=
  (users.filter (fun u => u.email == e)).length

/-! ### Helper lemmas about the store primitives -/

theorem findUser_eq_none {users : List User} {e : String} :
    findUser users e = none ↔ ∀ u ∈ users, u.email ≠ e := by
  simp [findUser, List.find?_eq_none]

theorem findUser_mem {users : List User} {e : String} {u : User}
    (h : findUser users e = some u) : u ∈ users ∧ u.email = e := by
  refine ⟨List.mem_of_find?_eq_some h, ?_⟩
  have := List.find?_some h
  simpa using this

theorem findUser_append (l1 l2 : List User) (e : String)
    (h : findUser l1 e = none) : findUser (l1 ++ l2) e = findUser l2 e := by
  induction l1 with
  | nil => rfl
  | cons a l ih =>
      cases hb : a.email == e with
      | true => simp [findUser, List.find?, hb] at h
      | false =>
          simp only [findUser, List.cons_append, List.find?, hb] at h ⊢
          exact ih h

theorem uniqueEmails_eq_of_email_eq {users : List User}
    (h : uniqueEmails users) {u v : User}
    (hu : u ∈ users) (hv : v ∈ users) (he : u.email = v.email) : u = v := by
  by_contra hne
  exact List.Pairwise.forall (fun a b hab => (hab ∘ Eq.symm)) h hu hv hne he

theorem countEmail_append (l1 l2 : List User) (e : String) :
    countEmail (l1 ++ l2) e = countEmail l1 e + countEmail l2 e := by
  simp [countEmail, List.filter_append]

theorem countEmail_eq_zero {users : List User} {e : String} :
    countEmail users e = 0 ↔ ∀ u ∈ users, u.email ≠ e := by
  simp [countEmail, List.filter_eq_nil_iff]

theorem countEmail_le_one {users : List User} (h : uniqueEmails users)
    (e : String) : countEmail users e ≤ 1 := by
  unfold countEmail
  rcases hf : users.filter (fun u => u.email == e) with _ | ⟨a, _ | ⟨b, l⟩⟩
  · rw [hf]; simp
  · rw [hf]; simp
  · exfalso
    have hp := List.Pairwise.filter (R := fun a b : User => a.email ≠ b.email)
      (fun u => u.email == e) h
    rw [hf] at hp
    have hab : a.email ≠ b.email := (List.pairwise_cons.mp hp).1 b (by simp)
    have ha : a.email = e := by
      have := List.of_mem_filter (a := a) (l := users) (hf ▸ List.mem_cons_self a _)
      simpa using this
    have hb : b.email = e := by
      have := List.of_mem_filter (a := b) (l := users)
        (hf ▸ (by simp : b ∈ a :: b :: l))
      simpa using this
    exact hab (ha.trans hb.symm)

theorem countEmail_pos_of_mem {users : List User} {u : User} {e : String}
    (hu : u ∈ users) (he : u.email = e) : 1 ≤ countEmail users e :=
  List.length_pos_of_mem (List.mem_filter.mpr ⟨hu, by simpa using he⟩)

theorem registerUser_eq (s : Store) (E P : String)
    (hE : normalizeEmail E ≠ "") (hP : normalizeText P ≠ "") :
    registerUser s E P =
      match findUser s.users (normalizeEmail E) with
      | some _ => (.conflict, s)
      | none =>
          (.success,
           { s with users := s.users ++
              [{ email := normalizeEmail E, password := normalizeText P }] }) := by
  unfold registerUser registerUserWithFind
  rcases h : findUser s.users (normalizeEmail E) with _ | u <;>
    simp [h, hE, hP]

theorem loginUser_eq (s : Store) (E P : String)
    (hE : normalizeEmail E ≠ "") (hP : normalizeText P ≠ "") :
    loginUser s E P =
      match findUser s.users (normalizeEmail E) with
      | none => .notFound
      | some found =>
          if found.password ≠ normalizeText P then .badCredentials else .success := by
  unfold loginUser
  simp [hE, hP]

/-! ### Claim theorems -/

/-- C1: login with email `E` and password `P` succeeds iff a stored User
has email equal to the normalized form of `E` and password equal to the
trimmed form of `P`; absence of such a User yields the "not found"
authentication failure, a password mismatch yields "bad credentials", and
email matching is insensitive to anything normalization erases (case,
padding) while password matching compares the trimmed password verbatim. -/
theorem loginUser_spec (s : Store) (E P : String)
    (hU : uniqueEmails s.users)
    (hE : normalizeEmail E ≠ "") (hP : normalizeText P ≠ "") :
    (loginUser s E P = .success ↔
      ∃ u, u ∈ s.users ∧ u.email = normalizeEmail E ∧ u.password = normalizeText P) ∧
    ((∀ u ∈ s.users, u.email ≠ normalizeEmail E) → loginUser s E P = .notFound) ∧
    (∀ u, u ∈ s.users → u.email = normalizeEmail E → u.password ≠ normalizeText P →
      loginUser s E P = .badCredentials) ∧
    (∀ E', normalizeEmail E' = normalizeEmail E → loginUser s E' P = loginUser s E P) := by
  refine ⟨?_, ?_, ?_, ?_⟩
  · rw [loginUser_eq s E P hE hP]
    constructor
    · intro hsucc
      rcases hfind : findUser s.users (normalizeEmail E) with _ | u
      · rw [hfind] at hsucc; cases hsucc
      · rw [hfind] at hsucc
        by_cases hpw : u.password = normalizeText P
        · exact ⟨u, (findUser_mem hfind).1, (findUser_mem hfind).2, hpw⟩
        · simp [hpw] at hsucc
    · rintro ⟨u, hu, he, hpw⟩
      rcases hfind : findUser s.users (normalizeEmail E) with _ | v
      · exact absurd he (findUser_eq_none.mp hfind u hu)
      · have hv := findUser_mem hfind
        have hvu : v = u := uniqueEmails_eq_of_email_eq hU hv.1 hu (hv.2.trans he.symm)
        subst hvu
        simp [hpw]
  · intro hnone
    rw [loginUser_eq s E P hE hP, findUser_eq_none.mpr hnone]
  · intro u hu he hpw
    rw [loginUser_eq s E P hE hP]
    rcases hfind : findUser s.users (normalizeEmail E) with _ | v
    · exact absurd he (findUser_eq_none.mp hfind u hu)
    · have hv := findUser_mem hfind
      have hvu : v = u := uniqueEmails_eq_of_email_eq hU hv.1 hu (hv.2.trans he.symm)
      subst hvu
      simp [hpw]
  · intro E' hEq
    have hE' : normalizeEmail E' ≠ "" := by rw [hEq]; exact hE
    rw [loginUser_eq s E P hE hP, loginUser_eq s E' P hE' hP, hEq]

/-- Witness for C1 at a concrete store: the user registered as
`u@x.com`/`pw1` can log in as `" U@X.COM "`/`" pw1 "`. -/
theorem loginUser_spec_witness :
    loginUser { users := [{ email := "u@x.com", password := "pw1" }],
                todos := [], nextId := 0 } " U@X.COM " " pw1 " = .success :=
  (loginUser_spec _ " U@X.COM " " pw1 " (by simp [uniqueEmails]) (by decide) (by decide)).1.mpr
    ⟨{ email := "u@x.com", password := "pw1" }, by decide, by decide, by decide⟩

theorem createTodo_users (s : Store) (e t : String) (n : Nat) :
    ((createTodo s e t n).2).users = s.users := by
  unfold createTodo
  by_cases hc : normalizeEmail e = "" ∨ normalizeText t = "" <;> simp [hc]

theorem updateTodoApply_users (s : Store) (oid : String)
    (tset : Option String) (cset : Option Bool) :
    ((updateTodoApply s oid tset cset).2).users = s.users := by
  unfold updateTodoApply
  rcases hf : findTodo (updateById s.todos oid tset cset) oid with _ | u <;> simp [hf]

theorem updateTodo_users (s : Store) (i : String) (t : Option String)
    (c : Option Bool) : ((updateTodo s i t c).2).users = s.users := by
  unfold updateTodo
  rcases hp : parseObjectID i with _ | oid
  · simp [hp]
  · rcases t with _ | rt
    · rcases c with _ | cv
      · simp [hp]
      · simp [hp, updateTodoApply_users]
    · by_cases ht : normalizeText rt = ""
      · simp [hp, ht]
      · simp [hp, ht, updateTodoApply_users]

theorem deleteTodo_users (s : Store) (i : String) :
    ((deleteTodo s i).2).users = s.users := by
  unfold deleteTodo
  split <;> rfl

theorem clearTodos_users (s : Store) (e : String) :
    (clearTodos s e).users = s.users := by
  unfold clearTodos
  split <;> rfl

theorem registerUser_preserves_unique (s : Store) (E P : String)
    (h : uniqueEmails s.users) : uniqueEmails ((registerUser s E P).2).users := by
  by_cases hc : normalizeEmail E = "" ∨ normalizeText P = ""
  · unfold registerUser registerUserWithFind
    simpa [hc] using h
  · rw [registerUser_eq s E P (not_or.mp hc).1 (not_or.mp hc).2]
    rcases hfind : findUser s.users (normalizeEmail E) with _ | u
    · refine List.pairwise_append.mpr ⟨h, List.pairwise_singleton _ _, ?_⟩
      intro a ha b hb
      simp only [List.mem_singleton] at hb
      subst hb
      exact findUser_eq_none.mp hfind a ha
    · exact h

theorem applyOp_preserves_unique (s : Store) (op : Op)
    (h : uniqueEmails s.users) : uniqueEmails ((applyOp s op).users) := by
  cases op with
  | register e p => exact registerUser_preserves_unique s e p h
  | login e p => exact h
  | listUsersOp => exact h
  | clearUsersOp => exact List.Pairwise.nil
  | listTodosOp e => exact h
  | createTodoOp e t n => rw [applyOp, createTodo_users]; exact h
  | updateTodoOp i t c => rw [applyOp, updateTodo_users]; exact h
  | deleteTodoOp i => rw [applyOp, deleteTodo_users]; exact h
  | clearTodosOp e => rw [applyOp, clearTodos_users]; exact h

theorem runOps_preserves_unique (s : Store) (ops : List Op)
    (h : uniqueEmails s.users) : uniqueEmails ((runOps s ops).users) := by
  induction ops generalizing s with
  | nil => exact h
  | cons op ops ih => exact ih _ (applyOp_preserves_unique s op h)

/-- C2: from any store satisfying the uniqueness invariant, registering the
same email twice (with well-formed inputs) leaves exactly one stored User
with that normalized email; the second attempt reports a conflict and does
not change the Users collection.  Moreover every sequence of service
operations preserves the at-most-one-User-per-normalized-email invariant. -/
theorem register_twice_and_invariant :
    (∀ (s : Store) (E P1 P2 : String), uniqueEmails s.users →
      normalizeEmail E ≠ "" → normalizeText P1 ≠ "" → normalizeText P2 ≠ "" →
      countEmail ((registerUser (registerUser s E P1).2 E P2).2).users
          (normalizeEmail E) = 1 ∧
      (registerUser (registerUser s E P1).2 E P2).1 = .conflict ∧
      ((registerUser (registerUser s E P1).2 E P2).2).users
        = ((registerUser s E P1).2).users) ∧
    (∀ (s : Store) (ops : List Op), uniqueEmails s.users →
      uniqueEmails ((runOps s ops).users)) := by
  constructor
  · intro s E P1 P2 hU hE hP1 hP2
    rcases hfind : findUser s.users (normalizeEmail E) with _ | u
    · have h1 : registerUser s E P1 =
          (.success, { s with users := s.users ++
            [{ email := normalizeEmail E, password := normalizeText P1 }] }) := by
        rw [registerUser_eq s E P1 hE hP1, hfind]
      have hfind2 : findUser (s.users ++
            [{ email := normalizeEmail E, password := normalizeText P1 }])
          (normalizeEmail E)
          = some { email := normalizeEmail E, password := normalizeText P1 } := by
        rw [findUser_append _ _ _ hfind]
        simp [findUser, List.find?]
      have h2 : registerUser (registerUser s E P1).2 E P2
          = (.conflict, (registerUser s E P1).2) := by
        rw [registerUser_eq _ E P2 hE hP2, h1]
        simp only [hfind2]
      rw [h2, h1]
      refine ⟨?_, rfl, rfl⟩
      rw [countEmail_append, countEmail_eq_zero.mpr (findUser_eq_none.mp hfind)]
      simp [countEmail]
    · have h1 : registerUser s E P1 = (.conflict, s) := by
        rw [registerUser_eq s E P1 hE hP1, hfind]
      have h2 : registerUser (registerUser s E P1).2 E P2 = (.conflict, s) := by
        rw [registerUser_eq _ E P2 hE hP2, h1]
        simp only [hfind]
      rw [h2, h1]
      refine ⟨?_, rfl, rfl⟩
      have hle := countEmail_le_one hU (normalizeEmail E)
      have hge := countEmail_pos_of_mem (findUser_mem hfind).1 (findUser_mem hfind).2
      exact Nat.le_antisymm hle hge
  · exact fun s ops h => runOps_preserves_unique s ops h

/-- Witness for C2 at a concrete input: registering `a@b.com` twice from
the empty store stores it once and the second attempt conflicts. -/
theorem register_twice_and_invariant_witness :
    countEmail ((registerUser
        (registerUser { users := [], todos := [], nextId := 0 } "a@b.com" "pw").2
        "a@b.com" "pw2").2).users "a@b.com" = 1 ∧
    (registerUser
        (registerUser { users := [], todos := [], nextId := 0 } "a@b.com" "pw").2
        "a@b.com" "pw2").1 = .conflict := by
  have h := register_twice_and_invariant.1 { users := [], todos := [], nextId := 0 }
    "a@b.com" "pw" "pw2" (by simp [uniqueEmails]) (by decide) (by decide) (by decide)
  have he : normalizeEmail "a@b.com" = "a@b.com" := by decide
  exact ⟨by rw [← he]; exact h.1, h.2.1⟩

/-- C3: a create-Todo request whose title trims to empty or whose email
normalizes to empty fails with a validation error and leaves the store —
in particular the Todos collection — untouched (no persistence call). -/
theorem createTodo_validation (s : Store) (email title : String) (now : Nat)
    (h : normalizeText title = "" ∨ normalizeEmail email = "") :
    createTodo s email title now = (.validationError, s) := by
  unfold createTodo
  rcases h with h | h <;> simp [h]

/-- Witness for C3: creating a todo whose title is whitespace fails and
leaves the empty store unchanged. -/
theorem createTodo_validation_witness :
    createTodo { users := [], todos := [], nextId := 0 } "a@b.com" "   " 0
      = (.validationError, { users := [], todos := [], nextId := 0 }) :=
  createTodo_validation _ "a@b.com" "   " 0 (Or.inl (by decide))

theorem toHexList_length (w n : Nat) : (toHexList w n).length = w := by
  induction w generalizing n with
  | zero => rfl
  | succ w ih => simp [toHexList, ih]

theorem genId_ne_empty (n : Nat) : genId n ≠ "" := by
  intro h
  have hlen : (genId n).length = 24 := toHexList_length 24 n
  rw [h] at hlen
  exact absurd hlen (by decide)

/-- C4: creating a Todo for `a@b.com` titled `buy milk` returns a
projection with `completed = false` and a non-empty identifier, and
listing with the query `"A@B.COM "` (mixed case, padded) immediately
afterwards contains that projection, because the stored owner email and
the list filter go through the same trim+lowercase normalization. -/
theorem create_list_roundtrip (s : Store) (now : Nat) :
    ∃ resp : TodoResponse,
      (createTodo s "a@b.com" "buy milk" now).1 = .created resp ∧
      resp.completed = false ∧
      resp.id ≠ "" ∧
      resp ∈ listTodos (createTodo s "a@b.com" "buy milk" now).2 "A@B.COM " := by
  have hcond : ¬(normalizeEmail "a@b.com" = "" ∨ normalizeText "buy milk" = "") := by
    decide
  have hE : normalizeEmail "a@b.com" = "a@b.com" := by decide
  have hT : normalizeText "buy milk" = "buy milk" := by decide
  refine ⟨toTodoResponse
      { id := genId s.nextId, email := "a@b.com", title := "buy milk"
        completed := false, createdAt := now }, ?_, rfl, genId_ne_empty s.nextId, ?_⟩
  · unfold createTodo
    simp [hcond, hE, hT]
  · unfold createTodo listTodos
    have hcond2 : ¬(("a@b.com" : String) = "" ∨ ("buy milk" : String) = "") := by decide
    have hraw : ("A@B.COM " : String) ≠ "" := by decide
    have hq : normalizeEmail "A@B.COM " = "a@b.com" := by decide
    simp only [hE, hT, if_neg hcond2, if_pos hraw, hq, List.filter_append]
    refine List.mem_map.mpr ⟨_, List.mem_append_right _ ?_, rfl⟩
    simp

/-- C9: a whitespace-only (non-empty, trimming to empty) email query to
list-Todos is treated as a supplied filter on the empty-string email: the
result is exactly the projection of the Todos stored with owner email
`""`, hence empty whenever every stored Todo has a non-empty owner — not
the full collection an omitted filter would return. -/
theorem listTodos_blank_filter (s : Store) (q : String)
    (hq : q ≠ "") (hnorm : normalizeEmail q = "") :
    listTodos s q = (s.todos.filter (fun t => t.email == "")).map toTodoResponse ∧
    ((∀ t ∈ s.todos, t.email ≠ "") → listTodos s q = []) := by
  have h1 : listTodos s q
      = (s.todos.filter (fun t => t.email == "")).map toTodoResponse := by
    unfold listTodos
    simp [hq, hnorm]
  refine ⟨h1, fun hall => ?_⟩
  rw [h1, List.filter_eq_nil_iff.mpr (fun t ht => by simpa using hall t ht)]
  rfl

/-- Witness for C9: with one stored todo owned by `a@b.com`, the query
`"   "` returns the empty sequence. -/
theorem listTodos_blank_filter_witness :
    listTodos { users := [],
                todos := [{ id := "a", email := "a@b.com", title := "t"
                            completed := false, createdAt := 0 }],
                nextId := 0 } "   " = [] :=
  (listTodos_blank_filter _ "   " (by decide) (by decide)).2 (by decide)

/-- C10: registration conflicts exactly when the pre-insert lookup decodes
a user (`err == nil`); every lookup failure — `ErrNoDocuments` or any
other store error — is treated as the user being absent and registration
proceeds to the insert instead of surfacing the lookup failure. -/
theorem register_lookup_failure (s : Store) (email password : String)
    (err : FindErr)
    (hE : normalizeEmail email ≠ "") (hP : normalizeText password ≠ "") :
    (∀ u, registerUserWithFind s email password (.ok u) = (.conflict, s)) ∧
    registerUserWithFind s email password (.error err) =
      (.success,
       { s with users := s.users ++
          [{ email := normalizeEmail email, password := normalizeText password }] }) := by
  unfold registerUserWithFind
  constructor
  · intro u
    simp [hE, hP]
  · simp [hE, hP]

/-- Witness for C10: a lookup that fails with a genuine store error (not
`ErrNoDocuments`) still lets registration insert the user. -/
theorem register_lookup_failure_witness :
    registerUserWithFind { users := [], todos := [], nextId := 0 } "a@b.com" "pw"
        (.error .storeFailure)
      = (.success,
         { users := [{ email := "a@b.com", password := "pw" }],
           todos := [], nextId := 0 }) :=
  ((register_lookup_failure { users := [], todos := [], nextId := 0 }
      "a@b.com" "pw" .storeFailure (by decide) (by decide)).2).trans (by decide)

/-- C8 counterexample: for the empty query string, `clearTodos` does not
delete exactly the Todos whose stored email equals the raw supplied
string — it deletes every Todo (the empty filter becomes `DeleteMany {}`),
so a store whose only todo is owned by `"x"` ends up empty rather than
untouched. -/
theorem clearTodos_empty_query_counterexample :
    (clearTodos { users := [],
                  todos := [{ id := "a", email := "x", title := "t"
                              completed := false, createdAt := 0 }],
                  nextId := 0 } "").todos
      ≠ [{ id := "a", email := "x", title := "t"
           completed := false, createdAt := 0 : Todo }].filter
          (fun t => !(t.email == "")) := by decide

/-- C8 (amended): for every NON-EMPTY email query string, `clearTodos`
applies the filter exactly as supplied, with no normalization: it deletes
exactly the stored Todos whose email equals the raw string, so a
mixed-case or padded query deletes nothing even when normalized-matching
Todos exist.  (The empty query string is the no-filter path and deletes
every Todo.) -/
theorem clearTodos_raw_filter (s : Store) (q : String) (hq : q ≠ "") :
    (clearTodos s q).todos = s.todos.filter (fun t => !(t.email == q)) ∧
    ((∀ t ∈ s.todos, t.email ≠ q) → (clearTodos s q).todos = s.todos) := by
  have h1 : (clearTodos s q).todos = s.todos.filter (fun t => !(t.email == q)) := by
    unfold clearTodos
    simp [hq]
  refine ⟨h1, fun hall => ?_⟩
  rw [h1, List.filter_eq_self.mpr (fun t ht => by simpa using hall t ht)]

/-- Witness for C8: the padded mixed-case query `"A@B.COM "` deletes
nothing although a stored todo matches its normalized form `a@b.com`. -/
theorem clearTodos_raw_filter_witness :
    (clearTodos { users := [],
                  todos := [{ id := "a", email := "a@b.com", title := "t"
                              completed := false, createdAt := 0 }],
                  nextId := 0 } "A@B.COM ").todos
      = [{ id := "a", email := "a@b.com", title := "t"
           completed := false, createdAt := 0 }] :=
  (clearTodos_raw_filter _ "A@B.COM " (by decide)).2 (by decide)

theorem parseObjectID_of_valid {s : String} (h : validObjectID s = true) :
    parseObjectID s = some (toLower s) := by
  unfold parseObjectID
  rw [if_pos h]

theorem parseObjectID_of_invalid {s : String} (h : validObjectID s = false) :
    parseObjectID s = none := by
  unfold parseObjectID
  rw [if_neg]
  simp [h]

theorem updateById_append_cons (pre post : List Todo) (t : Todo) (oid : String)
    (tset : Option String) (cset : Option Bool)
    (hpre : ∀ u ∈ pre, u.id ≠ oid) (hid : t.id = oid) :
    updateById (pre ++ t :: post) oid tset cset
      = pre ++ setFields tset cset t :: post := by
  induction pre with
  | nil => simp [updateById, hid]
  | cons a l ih =>
      have ha : (a.id == oid) = false := by
        simpa using hpre a (List.mem_cons_self a l)
      simp only [List.cons_append, updateById, ha, Bool.false_eq_true, if_false,
        List.cons.injEq, true_and]
      exact ih (fun u hu => hpre u (List.mem_cons_of_mem a hu))

theorem findTodo_append_cons (pre post : List Todo) (t : Todo) (oid : String)
    (hpre : ∀ u ∈ pre, u.id ≠ oid) (hid : t.id = oid) :
    findTodo (pre ++ t :: post) oid = some t := by
  induction pre with
  | nil => simp [findTodo, List.find?, hid]
  | cons a l ih =>
      have ha : (a.id == oid) = false := by
        simpa using hpre a (List.mem_cons_self a l)
      simp only [findTodo, List.cons_append, List.find?, ha]
      exact ih (fun u hu => hpre u (List.mem_cons_of_mem a hu))

theorem updateTodoApply_eq (s : Store) (oid : String)
    (tset : Option String) (cset : Option Bool)
    (pre post : List Todo) (t : Todo)
    (hsplit : s.todos = pre ++ t :: post)
    (hid : t.id = oid) (hpre : ∀ u ∈ pre, u.id ≠ oid) :
    updateTodoApply s oid tset cset
      = (.updated (toTodoResponse (setFields tset cset t)),
         { s with todos := pre ++ setFields tset cset t :: post }) := by
  simp only [updateTodoApply]
  rw [hsplit, updateById_append_cons pre post t oid tset cset hpre hid,
    findTodo_append_cons pre post (setFields tset cset t) oid hpre hid]

/-- C5: a successful partial update writes only the supplied fields of the
addressed Todo: the store keeps every other Todo exactly as it was, the
addressed Todo keeps its `id`, `email` and `createdAt`, an absent `title`
leaves the title untouched and an absent `completed` leaves the flag
untouched. -/
theorem updateTodo_frame (s : Store) (idHex : String)
    (titleOpt : Option String) (completedOpt : Option Bool)
    (pre post : List Todo) (t : Todo)
    (hvalid : validObjectID idHex = true)
    (hsplit : s.todos = pre ++ t :: post)
    (hid : t.id = toLower idHex)
    (hpre : ∀ u ∈ pre, u.id ≠ toLower idHex)
    (htitle : ∀ x, titleOpt = some x → normalizeText x ≠ "")
    (hsome : titleOpt ≠ none ∨ completedOpt ≠ none) :
    updateTodo s idHex titleOpt completedOpt =
      (.updated (toTodoResponse (setFields (titleOpt.map normalizeText) completedOpt t)),
       { s with todos :=
          pre ++ setFields (titleOpt.map normalizeText) completedOpt t :: post }) ∧
    (setFields (titleOpt.map normalizeText) completedOpt t).id = t.id ∧
    (setFields (titleOpt.map normalizeText) completedOpt t).email = t.email ∧
    (setFields (titleOpt.map normalizeText) completedOpt t).createdAt = t.createdAt ∧
    (titleOpt = none →
      (setFields (titleOpt.map normalizeText) completedOpt t).title = t.title) ∧
    (completedOpt = none →
      (setFields (titleOpt.map normalizeText) completedOpt t).completed = t.completed) := by
  refine ⟨?_, rfl, rfl, rfl, ?_, ?_⟩
  · unfold updateTodo
    rw [parseObjectID_of_valid hvalid]
    rcases titleOpt with _ | x
    · rcases completedOpt with _ | c
      · simp at hsome
      · exact updateTodoApply_eq s (toLower idHex) none (some c) pre post t
          hsplit hid hpre
    · have hx : ¬ normalizeText x = "" := htitle x rfl
      simp only [Option.map_some]
      rw [if_neg hx]
      exact updateTodoApply_eq s (toLower idHex) (some (normalizeText x)) completedOpt
        pre post t hsplit hid hpre
  · intro h
    subst h
    rfl
  · intro h
    subst h
    rfl

/-- Witness for C5: updating the single stored todo with only
`completed = true` flips the flag and leaves every other field as it
was. -/
theorem updateTodo_frame_witness :
    updateTodo
        { users := [],
          todos := [{ id := "aaaaaaaaaaaaaaaaaaaaaaaa", email := "a@b.com"
                      title := "t", completed := false, createdAt := 0 }],
          nextId := 1 } "aaaaaaaaaaaaaaaaaaaaaaaa" none (some true)
      = (.updated { id := "aaaaaaaaaaaaaaaaaaaaaaaa", email := "a@b.com"
                    title := "t", completed := true, createdAt := 0 },
         { users := [],
           todos := [{ id := "aaaaaaaaaaaaaaaaaaaaaaaa", email := "a@b.com"
                       title := "t", completed := true, createdAt := 0 }],
           nextId := 1 }) :=
  ((updateTodo_frame _ "aaaaaaaaaaaaaaaaaaaaaaaa" none (some true) [] []
      { id := "aaaaaaaaaaaaaaaaaaaaaaaa", email := "a@b.com"
        title := "t", completed := false, createdAt := 0 }
      (by decide) rfl (by decide) (by simp) (by simp)
      (Or.inr (by simp))).1).trans (by decide)

/-- C6: update-Todo failure modes, in the code's checking order: a
malformed identifier fails with "invalid id"; otherwise a supplied title
that trims to empty fails with the empty-title validation error;
otherwise, if neither field is supplied, it fails with "nothing to
update".  In every one of these cases the store is unchanged. -/
theorem updateTodo_errors (s : Store) (idHex : String)
    (titleOpt : Option String) (completedOpt : Option Bool) :
    (validObjectID idHex = false →
      updateTodo s idHex titleOpt completedOpt = (.invalidId, s)) ∧
    (∀ x, titleOpt = some x → normalizeText x = "" → validObjectID idHex = true →
      updateTodo s idHex titleOpt completedOpt = (.emptyTitle, s)) ∧
    (titleOpt = none → completedOpt = none → validObjectID idHex = true →
      updateTodo s idHex titleOpt completedOpt = (.nothingToUpdate, s)) := by
  refine ⟨?_, ?_, ?_⟩
  · intro hv
    unfold updateTodo
    rw [parseObjectID_of_invalid hv]
  · intro x hx ht hv
    subst hx
    unfold updateTodo
    rw [parseObjectID_of_valid hv]
    simp only [ht, if_pos]
  · intro ht hc hv
    subst ht
    subst hc
    unfold updateTodo
    rw [parseObjectID_of_valid hv]

/-- Witness for C6: the three failure cases at concrete inputs (malformed
id, whitespace title, empty body), each leaving a concrete store
untouched. -/
theorem updateTodo_errors_witness :
    updateTodo { users := [], todos := [], nextId := 0 } "zzz" none (some true)
      = (.invalidId, { users := [], todos := [], nextId := 0 }) ∧
    updateTodo { users := [], todos := [], nextId := 0 }
        "aaaaaaaaaaaaaaaaaaaaaaaa" (some " ") (some true)
      = (.emptyTitle, { users := [], todos := [], nextId := 0 }) ∧
    updateTodo { users := [], todos := [], nextId := 0 }
        "aaaaaaaaaaaaaaaaaaaaaaaa" none none
      = (.nothingToUpdate, { users := [], todos := [], nextId := 0 }) :=
  ⟨(updateTodo_errors { users := [], todos := [], nextId := 0 } "zzz"
      none (some true)).1 (by decide),
   (updateTodo_errors { users := [], todos := [], nextId := 0 }
      "aaaaaaaaaaaaaaaaaaaaaaaa" (some " ") (some true)).2.1
      " " rfl (by decide) (by decide),
   (updateTodo_errors { users := [], todos := [], nextId := 0 }
      "aaaaaaaaaaaaaaaaaaaaaaaa" none none).2.2 rfl rfl (by decide)⟩

theorem deleteOne_of_no_match (todos : List Todo) (oid : String)
    (h : ∀ t ∈ todos, t.id ≠ oid) : deleteOne todos oid = todos := by
  induction todos with
  | nil => rfl
  | cons a l ih =>
      have ha : (a.id == oid) = false := by
        simpa using h a (List.mem_cons_self a l)
      simp only [deleteOne, ha, Bool.false_eq_true, if_false, List.cons.injEq, true_and]
      exact ih (fun t ht => h t (List.mem_cons_of_mem a ht))

theorem deleteOne_removes_id (todos : List Todo) (oid : String)
    (hids : List.Pairwise (fun a b : Todo => a.id ≠ b.id) todos) :
    ∀ t ∈ deleteOne todos oid, t.id ≠ oid := by
  induction todos with
  | nil => intro t ht; cases ht
  | cons a l ih =>
      rcases List.pairwise_cons.mp hids with ⟨ha, hl⟩
      cases hb : a.id == oid with
      | true =>
          have haid : a.id = oid := by simpa using hb
          intro t ht
          simp only [deleteOne, hb, if_pos] at ht
          exact fun htid => (ha t ht) (haid ▸ htid ▸ rfl)
      | false =>
          intro t ht
          simp only [deleteOne, hb, Bool.false_eq_true, if_false] at ht
          rcases List.mem_cons.mp ht with rfl | ht
          · simpa using hb
          · exact ih hl t ht

/-- C7: deleting by a well-formed identifier always reports success —
whether or not a matching Todo exists — and afterwards no Todo with that
identifier remains (deleting an absent id leaves the store exactly as it
was); a malformed identifier fails with the 400 "invalid id" response and
changes nothing. -/
theorem deleteTodo_spec (s : Store) (idHex : String) :
    (validObjectID idHex = false → deleteTodo s idHex = (.invalidId, s)) ∧
    (validObjectID idHex = true →
      (deleteTodo s idHex).1 = .success ∧
      (List.Pairwise (fun a b : Todo => a.id ≠ b.id) s.todos →
        ∀ t ∈ ((deleteTodo s idHex).2).todos, t.id ≠ toLower idHex) ∧
      ((∀ t ∈ s.todos, t.id ≠ toLower idHex) → (deleteTodo s idHex).2 = s)) := by
  constructor
  · intro hv
    unfold deleteTodo
    rw [parseObjectID_of_invalid hv]
  · intro hv
    unfold deleteTodo
    rw [parseObjectID_of_valid hv]
    refine ⟨rfl, ?_, ?_⟩
    · intro hids
      exact deleteOne_removes_id s.todos (toLower idHex) hids
    · intro hnone
      have := deleteOne_of_no_match s.todos (toLower idHex) hnone
      simp [this]

/-- Witness for C7: deleting an absent (well-formed) identifier from a
concrete store succeeds and leaves it unchanged; deleting a malformed
identifier fails with "invalid id". -/
theorem deleteTodo_spec_witness :
    deleteTodo { users := [], todos := [], nextId := 0 } "zzz"
      = (.invalidId, { users := [], todos := [], nextId := 0 }) ∧
    (deleteTodo { users := [], todos := [], nextId := 0 }
        "aaaaaaaaaaaaaaaaaaaaaaaa").1 = .success ∧
    (deleteTodo { users := [], todos := [], nextId := 0 }
        "aaaaaaaaaaaaaaaaaaaaaaaa").2
      = { users := [], todos := [], nextId := 0 } :=
  ⟨(deleteTodo_spec { users := [], todos := [], nextId := 0 } "zzz").1 (by decide),
   ((deleteTodo_spec { users := [], todos := [], nextId := 0 }
      "aaaaaaaaaaaaaaaaaaaaaaaa").2 (by decide)).1,
   ((deleteTodo_spec { users := [], todos := [], nextId := 0 }
      "aaaaaaaaaaaaaaaaaaaaaaaa").2 (by decide)).2.2 (by simp)⟩

end TodoApp
